import Mathlib

/-!
Shallow embedding of the shipment-recording bot (handlers/save.py,
utils/validators.py, handlers/edit.py) and proofs about it.

The embedding follows the Python source.  Machine-level conventions:
Python `str` is Lean `String`; Python `int` is Lean `Int` (arbitrary
precision in both); `None`/exception flow is `Option`/`Except`.
Only ASCII digits and ASCII/basic-Cyrillic case mapping are modelled in
the string primitives (the repository's data uses exactly those).
-/

namespace Bot

/-! ### Python string primitives -/

/-- The whitespace characters stripped by Python `str.strip()`
(ASCII subset; exotic unicode whitespace is not modelled). -/
def isPySpace (c : Char) : Bool :=
  c = ' ' ∨ c = '\t' ∨ c = '\n' ∨ c = '\r' ∨ c = '\x0b' ∨ c = '\x0c'

/-- Python `str.strip()` on the character list. -/
def pyStripList (l : List Char) : List Char :=
  ((l.dropWhile isPySpace).reverse.dropWhile isPySpace).reverse

/-- Python `str.strip()`. -/
def pyStrip (s : String) : String := ⟨pyStripList s.data⟩

/-- Python `str.lower()` restricted to ASCII letters and the basic
Cyrillic block (А..Я, Ё) that this repository's literals use. -/
def pyLowerChar (c : Char) : Char :=
  if 'A' ≤ c ∧ c ≤ 'Z' then Char.ofNat (c.toNat + 32)
  else if 'А' ≤ c ∧ c ≤ 'Я' then Char.ofNat (c.toNat + 32)
  else if c = 'Ё' then 'ё'
  else c

/-- Python `str.lower()`. -/
def pyLower (s : String) : String := ⟨s.data.map pyLowerChar⟩

/-- Python `str.upper()` (ASCII letters; size labels are ASCII). -/
def pyUpperChar (c : Char) : Char :=
  if 'a' ≤ c ∧ c ≤ 'z' then Char.ofNat (c.toNat - 32) else c

/-- Python `str.upper()`. -/
def pyUpper (s : String) : String := ⟨s.data.map pyUpperChar⟩

/-- Value of a run of ASCII digit characters, admitting single `_`
separators between digits exactly as Python `int()` does.  `none` on
any malformed character.  The head character is checked by the caller. -/
def pyDigitsVal : List Char → Nat → Option Nat
  | [], acc => some acc
  | c :: cs, acc =>
    if c.isDigit then pyDigitsVal cs (10 * acc + (c.toNat - 48))
    else if c = '_' then
      match cs with
      | d :: _ => if d.isDigit then pyDigitsVal cs acc else none
      | [] => none
    else none

/-- Python `int(s)` for base-10 text: strips whitespace, accepts an
optional sign, then digits with optional single underscores between
digits.  Returns `none` where Python raises `ValueError`.
(Non-ASCII unicode digits are not modelled.) -/
def pyInt (s : String) : Option Int :=
  let t := pyStripList s.data
  let core : List Char → Option Nat := fun cs =>
    match cs with
    | [] => none
    | c :: _ => if c.isDigit then pyDigitsVal cs 0 else none
  match t with
  | '+' :: cs => (core cs).map fun n => (n : Int)
  | '-' :: cs => (core cs).map fun n => -(n : Int)
  | cs => (core cs).map fun n => (n : Int)

/-- Split a character list at every occurrence of `sep`
(Python `s.split(sep)` for a one-character separator). -/
def splitOnChar (sep : Char) : List Char → List (List Char)
  | [] => [[]]
  | c :: cs =>
    if c = sep then [] :: splitOnChar sep cs
    else
      match splitOnChar sep cs with
      | [] => [[c]]
      | g :: gs => (c :: g) :: gs

/-- Rejoin fields with the separator (used to model the remainder kept
by Python `s.split(sep, 1)`). -/
def joinChar (sep : Char) : List (List Char) → List Char
  | [] => []
  | [x] => x
  | x :: xs => x ++ sep :: joinChar sep xs

/-- Python `s.split(sep)` for a one-character separator. -/
def pySplitChar (sep : Char) (s : String) : List String :=
  (splitOnChar sep s.data).map fun l => ⟨l⟩

/-- Python `s.split(sep, 1)` for a one-character separator. -/
def pySplit1 (sep : Char) (s : String) : List String :=
  match splitOnChar sep s.data with
  | [] => [s]
  | [a] => [⟨a⟩]
  | a :: rest => [⟨a⟩, ⟨joinChar sep rest⟩]

/-- Split a character list wherever `p` holds. -/
def splitOnPred (p : Char → Bool) : List Char → List (List Char)
  | [] => [[]]
  | c :: cs =>
    if p c then [] :: splitOnPred p cs
    else
      match splitOnPred p cs with
      | [] => [[c]]
      | g :: gs => (c :: g) :: gs

/-- Python `s.split()` with no argument: split on whitespace runs,
discarding empty fields. -/
def pySplitWS (s : String) : List String :=
  ((splitOnPred isPySpace s.data).map fun l => (⟨l⟩ : String)).filter
    fun t => t ≠ ""

/-- Does the character list start with the given pattern? -/
def startsWithChars : List Char → List Char → Bool
  | [], _ => true
  | _ :: _, [] => false
  | p :: ps, c :: cs => p = c ∧ startsWithChars ps cs

/-- Python `s.startswith(pat)`. -/
def pyStartsWith (pat s : String) : Bool := startsWithChars pat.data s.data

/-! ### utils/validators.py — dates

`validate_date` / `standardize_date` call CPython
`datetime.strptime(s, fmt)` with the formats `%d/%m/%Y` and `%d.%m.%Y`.
`_strptime` compiles `%d` to the regex `3[0-1]|[1-2]\d|0[1-9]|[1-9]| [1-9]`
(one or two digits with value 1..31, or a space followed by one digit
1..9), `%m` to `1[0-2]|0[1-9]|[1-9]`
(one or two digits, value 1..12) and `%Y` to `\d\d\d\d` (exactly four
digits), requires the whole string to match, and finally constructs a
`datetime`, which enforces `MINYEAR = 1` and the real calendar length
of the month.  The separator never matches inside a token, so the
regex is equivalent to splitting on the separator. -/

/-- Fold a digit run to its value (the tokens below are all-digit). -/
def digitsToNat (l : List Char) : Nat :=
  l.foldl (fun a c => 10 * a + (c.toNat - 48)) 0

/-- The `%d` token of `_strptime`: one or two digits with value 1..31,
or a single space followed by one digit `[1-9]` (a digit other than
`'0'`, i.e. of nonzero value). -/
def dayTok (t : List Char) : Option Nat :=
  if t.all Char.isDigit ∧ (t.length = 1 ∨ t.length = 2) then
    if 1 ≤ digitsToNat t ∧ digitsToNat t ≤ 31 then some (digitsToNat t) else none
  else
    match t with
    | [' ', c] =>
      if c.isDigit ∧ c.toNat ≠ 48 then some (c.toNat - 48) else none
    | _ => none

/-- The `%m` token of `_strptime`: one or two digits, value 1..12. -/
def monTok (t : List Char) : Option Nat :=
  if t.all Char.isDigit ∧ (t.length = 1 ∨ t.length = 2) then
    if 1 ≤ digitsToNat t ∧ digitsToNat t ≤ 12 then some (digitsToNat t) else none
  else none

/-- The `%Y` token of `_strptime`: exactly four digits. -/
def yearTok (t : List Char) : Option Nat :=
  if t.all Char.isDigit ∧ t.length = 4 then some (digitsToNat t) else none

/-- Gregorian leap-year rule used by `datetime`. -/
def isLeap (y : Nat) : Bool := y % 4 = 0 ∧ (y % 100 ≠ 0 ∨ y % 400 = 0)

/-- Days in a month, as enforced by the `datetime` constructor. -/
def daysInMonth (m y : Nat) : Nat :=
  if m = 2 then (if isLeap y then 29 else 28)
  else if m = 4 ∨ m = 6 ∨ m = 9 ∨ m = 11 then 30
  else 31

/-- `datetime.strptime(s, "%d<sep>%m<sep>%Y")`: `some (d, m, y)` when it
succeeds, `none` where Python raises `ValueError`. -/
def pyStrptimeDMY (sep : Char) (s : String) : Option (Nat × Nat × Nat) :=
  match splitOnChar sep s.data with
  | [dt, mt, yt] => do
    let d ← dayTok dt
    let m ← monTok mt
    let y ← yearTok yt
    if 1 ≤ y ∧ d ≤ daysInMonth m y then some (d, m, y) else none
  | _ => none

/-- `validate_date`: tries `%d/%m/%Y` then `%d.%m.%Y`. -/
def validate_date (date_str : String) : Bool :=
  (pyStrptimeDMY '/' date_str).isSome || (pyStrptimeDMY '.' date_str).isSome

/-- Two zero-padded decimal digits (`strftime` `%d` / `%m`). -/
def pad2 (n : Nat) : List Char := [Nat.digitChar (n / 10), Nat.digitChar (n % 10)]

/-- Four zero-padded decimal digits (`strftime` `%Y` as documented by
CPython; some platforms do not pad years below 1000 — that platform
quirk is not modelled). -/
def pad4 (n : Nat) : List Char :=
  [Nat.digitChar (n / 1000), Nat.digitChar (n / 100 % 10),
   Nat.digitChar (n / 10 % 10), Nat.digitChar (n % 10)]

/-- `date_obj.strftime("%d/%m/%Y")`. -/
def fmtDMY (d m y : Nat) : String := ⟨pad2 d ++ '/' :: pad2 m ++ '/' :: pad4 y⟩

/-- `standardize_date`: parse with the two formats in order; render
back with `%d/%m/%Y`; return the input unchanged if both formats fail. -/
def standardize_date (date_str : String) : String :=
  match pyStrptimeDMY '/' date_str with
  | some (d, m, y) => fmtDMY d m y
  | none =>
    match pyStrptimeDMY '.' date_str with
    | some (d, m, y) => fmtDMY d m y
    | none => date_str

/-! ### utils/validators.py and handlers/edit.py — size-list parsers -/

/-- Python dict assignment `d[k] = v` on an insertion-ordered
association list: overwrite in place if the key exists, else append. -/
def dictSet (k : String) (v : Int) : List (String × Int) → List (String × Int)
  | [] => [(k, v)]
  | (k0, v0) :: rest =>
    if k0 = k then (k0, v) :: rest else (k0, v0) :: dictSet k v rest

/-- One `size_part` of `parse_warehouse_sizes`:
`size, quantity_str = size_part.split('-', 1)`, upper-cased key,
`int(quantity_str.strip())`. `none` where Python raises. -/
def parseSizePart (sizes : List (String × Int)) (size_part : String) :
    Option (List (String × Int)) :=
  match pySplit1 '-' size_part with
  | [size, quantity_str] =>
    match pyInt (pyStrip quantity_str) with
    | some q => some (dictSet (pyUpper (pyStrip size)) q sizes)
    | none => none
  | _ => none

/-- The body of `parse_warehouse_sizes` for one comma-separated part:
`warehouse_name, sizes_str = warehouse_part.split(':', 1)` (raises when
there is no colon), then whitespace-split `SIZE-QTY` tokens. -/
def parseWarehousePart (warehouse_part : String) :
    Option (String × List (String × Int)) :=
  match pySplit1 ':' warehouse_part with
  | [warehouse_name, sizes_str] =>
    let go : List (String × Int) → List String → Option (List (String × Int)) :=
      fun init parts => parts.foldlM parseSizePart init
    (go [] (pySplitWS (pyStrip sizes_str))).map
      fun sizes => (pyStrip warehouse_name, sizes)
  | _ => none

/-- `parse_warehouse_sizes` (utils/validators.py): split on commas,
parse each warehouse group; any exception yields `None`. -/
def parse_warehouse_sizes (warehouse_sizes_str : String) :
    Option (List (String × List (String × Int))) :=
  ((pySplitChar ',' warehouse_sizes_str).map pyStrip).foldlM
    (fun acc part => (parseWarehousePart part).map fun wd => acc ++ [wd]) []

/-- `parse_new_size_format` (handlers/edit.py): split on commas; a pair
without a dash is skipped; `int(amount.strip())` failing makes the whole
parse return `None`. -/
def parse_new_size_format (size_input : String) :
    Option (List (String × Int)) :=
  ((pySplitChar ',' size_input).map pyStrip).foldlM
    (fun sizes pair =>
      if pair.data.contains '-' then
        match pySplit1 '-' pair with
        | [size, amount] =>
          match pyInt (pyStrip amount) with
          | some a => some (dictSet (pyUpper (pyStrip size)) a sizes)
          | none => none
        | _ => none
      else some sizes)
    []

/-! ### handlers/save.py — identifier allocator

The ledger snapshot is `all_values : List (List String)` (row 1 is the
header row).  Exceptions are modelled with `Except PyErr`; the ledger
read is an oracle `read : Nat → Option (List (List String))` giving the
outcome of each retry attempt (`none` = the read raised). -/

/-- The exception classes of handlers/save.py that the allocator
catches or re-raises. -/
inductive PyErr where
  | shipmentIdError : PyErr
  | bagIdError : PyErr
  | otherError : PyErr
deriving DecidableEq, Repr

/-- The `header_map` built by `_safe_get_factory_sheet_data`:
`header_map[header.lower().strip()] = i` for each header in order, so a
duplicated clean header keeps the **last** index, exactly like the
Python dict. `headerIdx headers key` is `header_map.get(key)`. -/
def headerIdx (headers : List String) (key : String) : Option Nat :=
  headers.enum.foldl
    (fun acc p => if pyStrip (pyLower p.2) = key then some p.1 else acc) none

/-- One data row of `_extract_shipment_ids_from_factory`: the shipment
value of the row if it is present, non-empty and parses as a positive
integer; `none` otherwise (short rows, blanks and bad values are
skipped). -/
def shipIdOfRow (j : Nat) (row : List String) : Option Int :=
  if row.length ≤ j then none
  else
    let v := pyStrip (row.getD j "")
    if v = "" then none
    else
      match pyInt v with
      | some n => if 0 < n then some n else none
      | none => none

/-- `_extract_shipment_ids_from_factory`: raises `ShipmentIDError` when
the column `номер отправки` is missing, else collects the valid
shipment ids of the data rows (the header row is skipped). -/
def extract_shipment_ids_from_factory (all_values : List (List String))
    (headers : List String) : Except PyErr (List Int) :=
  match headerIdx headers "номер отправки" with
  | none => .error .shipmentIdError
  | some j => .ok ((all_values.drop 1).filterMap (shipIdOfRow j))

/-- One data row of `_extract_bag_ids_for_shipment_factory`: the bag
number contributed by the row, if any.  The row must be long enough,
its shipment column must equal `shipment_id` exactly, and its bag entry
must split on `-` into at least two parts with the first part equal to
`shipment_id` and the second parsing as a positive integer
(`parts = bag_id.split("-")`; `int(parts[1])`). -/
def bagNumOfRow (jbag jship : Nat) (shipment_id : String) (row : List String) :
    Option Int :=
  if row.length ≤ max jbag jship then none
  else if pyStrip (row.getD jship "") ≠ shipment_id then none
  else
    let bag_id := pyStrip (row.getD jbag "")
    if bag_id = "" then none
    else if bag_id.data.contains '-' then
      let parts := pySplitChar '-' bag_id
      if 2 ≤ parts.length ∧ parts.headD "" = shipment_id then
        match pyInt (parts.getD 1 "") with
        | some n => if 0 < n then some n else none
        | none => none
      else none
    else none

/-- `_extract_bag_ids_for_shipment_factory`: raises `BagIDError` when
either needed column is missing, else collects the bag numbers of the
given shipment. -/
def extract_bag_ids_for_shipment_factory (all_values : List (List String))
    (headers : List String) (shipment_id : String) : Except PyErr (List Int) :=
  match headerIdx headers "номер пакета", headerIdx headers "номер отправки" with
  | none, _ => .error .bagIdError
  | some _, none => .error .bagIdError
  | some jbag, some jship =>
    .ok ((all_values.drop 1).filterMap (bagNumOfRow jbag jship shipment_id))

/-- Python `max` over a non-empty list. -/
def listMax (x : Int) (xs : List Int) : Int := xs.foldl max x

/-- The retry loop of `_safe_get_factory_sheet_data` with
`max_retries = 3`: `left` counts the attempts still available
(including the current one), `attempt` is the 0-based attempt index.
An empty read is retried and finally returned as `[]`; a raising read
is retried and finally converted to `ShipmentIDError`. -/
def safeGetGo (read : Nat → Option (List (List String))) :
    Nat → Nat → Except PyErr (List (List String))
  | _, 0 => .error .shipmentIdError
  | attempt, left + 1 =>
    match read attempt with
    | some vals =>
      if vals.isEmpty then
        if left = 0 then .ok [] else safeGetGo read (attempt + 1) left
      else .ok vals
    | none =>
      if left = 0 then .error .shipmentIdError
      else safeGetGo read (attempt + 1) left

/-- `_safe_get_factory_sheet_data` (the header map is recomputed from
row 1 by the consumers below, as the Python code does). -/
def safe_get_factory_sheet_data (read : Nat → Option (List (List String))) :
    Except PyErr (List (List String)) :=
  safeGetGo read 0 3

/-- The body of `_new_shipment_id_for_factory` acting on a successfully
read snapshot: `"1"` for an empty ledger or when no valid ids exist,
else the decimal string of `max + 1`. -/
def new_shipment_id_core (all_values : List (List String)) :
    Except PyErr String :=
  if all_values.length < 2 then .ok "1"
  else
    match extract_shipment_ids_from_factory all_values (all_values.headD []) with
    | .error e => .error e
    | .ok ids =>
      match ids with
      | [] => .ok "1"
      | x :: xs => .ok (toString (listMax x xs + 1))

/-- `_new_shipment_id_for_factory`: runs the body; a `ShipmentIDError`
is re-raised, any other exception falls back to the timestamp id
`str(int(time.time()) % 100000)`. -/
def new_shipment_id_for_factory (read : Nat → Option (List (List String)))
    (now : Nat) : Except PyErr String :=
  let body : Except PyErr String :=
    match safe_get_factory_sheet_data read with
    | .error e => .error e
    | .ok all_values => new_shipment_id_core all_values
  match body with
  | .ok s => .ok s
  | .error .shipmentIdError => .error .shipmentIdError
  | .error _ => .ok (toString (now % 100000))

/-- The body of `_get_next_bag_number_for_shipment_factory` on a
successfully read snapshot (the shipment id is already validated and
stripped by the wrapper): 1 for an empty ledger or when the shipment
has no bags, else `max + 1`. -/
def next_bag_number_core (all_values : List (List String))
    (shipment_id : String) : Except PyErr Int :=
  if all_values.length < 2 then .ok 1
  else
    match extract_bag_ids_for_shipment_factory all_values
        (all_values.headD []) shipment_id with
    | .error e => .error e
    | .ok nums =>
      match nums with
      | [] => .ok 1
      | x :: xs => .ok (listMax x xs + 1)

/-- `_get_next_bag_number_for_shipment_factory`: an empty shipment id
raises `BagIDError`; a `BagIDError` is re-raised; any other exception
(including the `ShipmentIDError` of an unreadable ledger) falls back to
bag number 1. -/
def get_next_bag_number_for_shipment_factory
    (read : Nat → Option (List (List String))) (shipment_id : String) :
    Except PyErr Int :=
  let body : Except PyErr Int :=
    if pyStrip shipment_id = "" then .error .bagIdError
    else
      match safe_get_factory_sheet_data read with
      | .error e => .error e
      | .ok all_values => next_bag_number_core all_values (pyStrip shipment_id)
  match body with
  | .ok n => .ok n
  | .error .bagIdError => .error .bagIdError
  | .error _ => .ok 1

/-! ### handlers/save.py — session state machine

The conversation state dict `st` is modelled as a structure; the steps
are `STEP_*`; `st = None` (session destroyed) is `Option`.  Outbound
messages are modelled as tags, one per distinct `bot.reply_to` /
`bot.send_message` / `bot.edit_message_text` text in the source. -/

/-- A bag: `{'bag_id': ..., 'sizes': {size: qty}}`. -/
structure Bag where
  bag_id : String
  sizes : List (String × Int)
deriving DecidableEq, Repr

/-- One entry of `st[STATE_MODELS]`:
`{"model_name": ..., "colors": {color: [bags]}}`.  The color key is
`st.get(CURRENT_COLOR)`, hence optional. -/
structure ModelEntry where
  model_name : Option String
  colors : List (Option String × List Bag)
deriving DecidableEq, Repr

/-- The `STEP_*` constants. -/
inductive Step where
  | askWarehouse | askModel | askColorName | askColorSizes
  | askShipDate | askEtaDate | confirmStep
deriving DecidableEq, Repr

/-- The conversation state stored under `STATE_KEY`. -/
structure SessionSt where
  step : Step
  warehouse : Option String
  models : List ModelEntry
  current_model : Option String
  current_color : Option String
  current_bags : List Bag
  current_bag_index : Nat
  awaiting_size : Option String
  ship_date : Option String
  eta_date : Option String
  shipment_id : String
deriving DecidableEq, Repr

/-- Outbound message tags (one per distinct user-facing text). -/
inductive Msg where
  | cancelled
  | askQty (size : String)
  | errQty
  | bagPreview
  | chooseWarehouseButtons
  | errEmptyModel
  | promptColorName
  | errEmptyColor
  | errBadDate
  | promptEtaDate
  | confirmSummary
  | useButtons
  | sessionExpired
  | errBagNotFound
  | needSizeFirst
  | newBagCreated
  | promptModel
  | promptNextColor
  | promptShipDate
  | commitSuccess (saved : Nat)
  | commitPartialContactSupport (saved errors : Nat)
deriving DecidableEq, Repr

/-- `_generate_bag_id_factory` with an explicit `bag_number` (the only
way the handlers call it): empty shipment id or a non-positive bag
number raise `BagIDError`, which the function itself catches with the
timestamp fallback `f"{shipment_id}-{int(time.time()) % 1000}"`
(the strip assignment has not run yet on the empty-id path). -/
def generate_bag_id_factory (shipment_id : String) (bag_number : Nat)
    (now : Nat) : String :=
  if pyStrip shipment_id = "" then shipment_id ++ "-" ++ toString (now % 1000)
  else if bag_number = 0 then pyStrip shipment_id ++ "-" ++ toString (now % 1000)
  else pyStrip shipment_id ++ "-" ++ toString bag_number

/-- Python truthiness of `st.get(key)` for an optional string. -/
def pyFalsyOpt : Option String → Bool
  | none => true
  | some s => s = ""

/-- Truthiness of `any(bag['sizes'].values())`. -/
def bagAnyNonzero (b : Bag) : Bool := b.sizes.any fun p => p.2 ≠ 0

/-- Python dict assignment on the `colors` mapping. -/
def dictSetColors (k : Option String) (v : List Bag) :
    List (Option String × List Bag) → List (Option String × List Bag)
  | [] => [(k, v)]
  | (k0, v0) :: rest =>
    if k0 = k then (k0, v) :: rest else (k0, v0) :: dictSetColors k v rest

/-- The color-saving block shared by `cadd_color` and `cfinish_model`:
append a fresh model entry when the list is empty or the last entry is
for a different model name, then `models[-1]["colors"][color] = bags`. -/
def saveColor (models : List ModelEntry) (current_model : Option String)
    (current_color : Option String) (bags : List Bag) : List ModelEntry :=
  let ms :=
    if models.isEmpty ∨ (models.getLast?.elim true fun m => m.model_name ≠ current_model)
    then models ++ [⟨current_model, []⟩] else models
  let lastM := ms.getLastD ⟨current_model, []⟩
  ms.dropLast ++ [{ lastM with colors := dictSetColors current_color bags lastM.colors }]

/-- `handle_text` (the free-text message handler), as a function
`(state, input) → (new state, messages)`.  Only dispatched when a
session exists.  Branches in source order. -/
def handle_text (now : Nat) (st : SessionSt) (input : String) :
    Option SessionSt × List Msg :=
  let text := pyStrip input
  if pyLower text = "/cancel" ∨ pyLower text = "отмена" then
    (none, [.cancelled])
  else if st.step = .askColorSizes ∧ ¬ pyFalsyOpt st.awaiting_size then
    let size := st.awaiting_size.getD ""
    match pyInt text with
    | none => (some st, [.errQty])
    | some qty =>
      if qty < 0 then (some st, [.errQty])
      else if st.current_bag_index < st.current_bags.length then
        let b := st.current_bags.getD st.current_bag_index ⟨"", []⟩
        let bags := st.current_bags.set st.current_bag_index
          { b with sizes := dictSet size qty b.sizes }
        (some { st with current_bags := bags, awaiting_size := none },
         [.bagPreview])
      else (some st, [])
  else if st.step = .askWarehouse then (some st, [.chooseWarehouseButtons])
  else if st.step = .askModel then
    if text = "" then (some st, [.errEmptyModel])
    else (some { st with current_model := some text, step := .askColorName },
          [.promptColorName])
  else if st.step = .askColorName then
    if text = "" then (some st, [.errEmptyColor])
    else
      let first_bag : Bag := ⟨generate_bag_id_factory st.shipment_id 1 now, []⟩
      (some { st with current_color := some text, current_bags := [first_bag],
                      current_bag_index := 0, awaiting_size := none,
                      step := .askColorSizes },
       [.bagPreview])
  else if st.step = .askShipDate then
    if validate_date text = false then (some st, [.errBadDate])
    else (some { st with ship_date := some (standardize_date text),
                         step := .askEtaDate },
          [.promptEtaDate])
  else if st.step = .askEtaDate then
    if validate_date text = false then (some st, [.errBadDate])
    else (some { st with eta_date := some (standardize_date text),
                         step := .confirmStep },
          [.confirmSummary])
  else if st.step = .confirmStep then (some st, [.useButtons])
  else (some st, [])

/-- `on_sizepad` (the size-keypad callback handler).  The callback
data is the raw token (`"cset_<size>"`, `"cadd_bag"`, ...). -/
def on_sizepad (now : Nat) (ost : Option SessionSt) (data : String) :
    Option SessionSt × List Msg :=
  match ost with
  | none => (none, [.sessionExpired])
  | some st =>
    if st.step ≠ .askColorSizes then (some st, [.sessionExpired])
    else
      let bags := st.current_bags
      let idx := st.current_bag_index
      if bags.length ≤ idx then (some st, [.errBagNotFound])
      else
        let current_bag := bags.getD idx ⟨"", []⟩
        if pyStartsWith "cset_" data then
          -- `size = data.split("_", 1)[1]`; the guard puts the first
          -- underscore at index 4, so this is `data[5:]`
          (some { st with awaiting_size := some ⟨data.data.drop 5⟩ },
           [.askQty ⟨data.data.drop 5⟩])
        else if data = "cadd_bag" then
          if ¬ bagAnyNonzero current_bag then (some st, [.needSizeFirst])
          else
            let new_bag : Bag :=
              ⟨generate_bag_id_factory st.shipment_id (bags.length + 1) now, []⟩
            let bags2 := bags ++ [new_bag]
            (some { st with current_bags := bags2,
                            current_bag_index := bags2.length - 1 },
             [.newBagCreated])
        else if data = "cclr" then
          (some { st with
                    current_bags := bags.set idx { current_bag with sizes := [] },
                    awaiting_size := none },
           [.bagPreview])
        else if data = "cback" then
          (some { st with current_color := none, current_bags := [],
                          current_bag_index := 0, awaiting_size := none,
                          step := .askModel },
           [.promptModel])
        else if data = "cadd_color" then
          if ¬ bags.any bagAnyNonzero then (some st, [.needSizeFirst])
          else
            (some { st with
                      models := saveColor st.models st.current_model st.current_color bags,
                      current_color := none, current_bags := [],
                      current_bag_index := 0, awaiting_size := none,
                      step := .askColorName },
             [.promptNextColor])
        else if data = "cfinish_model" then
          let models2 :=
            if ¬ bags.isEmpty ∧ bags.any bagAnyNonzero
            then saveColor st.models st.current_model st.current_color bags
            else st.models
          let st2 := { st with models := models2, current_color := none,
                               current_bags := [], current_bag_index := 0,
                               awaiting_size := none }
          if pyFalsyOpt st.ship_date then
            (some { st2 with step := .askShipDate }, [.promptShipDate])
          else if pyFalsyOpt st.eta_date then
            (some { st2 with step := .askEtaDate }, [.promptEtaDate])
          else (some { st2 with step := .confirmStep }, [.confirmSummary])
        else (some st, [])

/-! ### handlers/save.py — commit coordinator (`ship_finish_all`) -/

/-- The fields of the appended ledger row that come from the session
(timestamp / user id / username come from the transport; the projection
of `sizes` onto the fixed size-column list is the sheet layout and does
not affect any claim). -/
structure LedgerRow where
  shipment_id : String
  bag_id : String
  warehouse : Option String
  model : Option String
  color : Option String
  ship_date : Option String
  eta_date : Option String
  actual_arrival : String
  total : Int
  sizes : List (String × Int)
  status : String
deriving DecidableEq, Repr

/-- `total_amount = sum(int(v or 0) for v in sizes.values())` (the
stored quantities are ints, so `v or 0 = v`). -/
def bagTotal (b : Bag) : Int := (b.sizes.map Prod.snd).sum

/-- The nested iteration order of the commit loop:
models in order, colors in dict insertion order, bags in order. -/
def sessionItems (st : SessionSt) :
    List (Option String × Option String × Bag) :=
  st.models.flatMap fun m =>
    m.colors.flatMap fun cb => cb.2.map fun b => (m.model_name, cb.1, b)

/-- The row built from form data for one bag. -/
def mkLedgerRow (st : SessionSt) (mname cname : Option String) (b : Bag) :
    LedgerRow :=
  { shipment_id := st.shipment_id, bag_id := b.bag_id,
    warehouse := st.warehouse, model := mname, color := cname,
    ship_date := st.ship_date, eta_date := st.eta_date,
    actual_arrival := "", total := bagTotal b, sizes := b.sizes,
    status := "в обработке" }

/-- Outcome of the commit loop: counters, the appended rows in order,
and the notification attempts made for them. -/
structure CommitResult where
  saved : Nat
  errors : Nat
  appended : List LedgerRow
  notified : List (LedgerRow × Bool)
deriving DecidableEq, Repr

/-- The `for` loop of `ship_finish_all`.  `append k row` is the outcome
of the `k`-th `save_to_sheets_factory` call (`false` = it raised);
`notify` is the outcome of `_notify_admins_about_new_record_factory`,
whose exceptions are caught in place.  An all-zero bag is skipped; an
append failure increments `errors` and the loop continues. -/
def commitGo (append : Nat → LedgerRow → Bool) (notify : LedgerRow → Bool)
    (st : SessionSt) :
    Nat → List (Option String × Option String × Bag) → CommitResult
  | _, [] => ⟨0, 0, [], []⟩
  | k, it :: rest =>
    if bagTotal it.2.2 = 0 then commitGo append notify st k rest
    else
      let row := mkLedgerRow st it.1 it.2.1 it.2.2
      if append k row then
        let r := commitGo append notify st (k + 1) rest
        ⟨r.saved + 1, r.errors, row :: r.appended, (row, notify row) :: r.notified⟩
      else
        let r := commitGo append notify st (k + 1) rest
        ⟨r.saved, r.errors + 1, r.appended, r.notified⟩

/-- `on_actions` for `"ship_finish_all"`: run the loop, report the
summary (the error summary is the contact-an-administrator message),
and always clear the session in the `finally` block. -/
def ship_finish_all (append : Nat → LedgerRow → Bool)
    (notify : LedgerRow → Bool) (st : SessionSt) :
    Option SessionSt × CommitResult × Msg :=
  let r := commitGo append notify st 0 (sessionItems st)
  (none, r,
   if r.errors = 0 then .commitSuccess r.saved
   else .commitPartialContactSupport r.saved r.errors)

/-- The session events the proofs drive the machine with. -/
inductive Ev where
  | text (s : String)
  | sizepad (data : String)
deriving DecidableEq, Repr

/-- Dispatch one event (free text is only dispatched while a session
exists, mirroring the `message_handler` registration filter). -/
def stepEv (now : Nat) (ost : Option SessionSt) (e : Ev) :
    Option SessionSt × List Msg :=
  match e with
  | .text s =>
    match ost with
    | none => (none, [])
    | some st => handle_text now st s
  | .sizepad d => on_sizepad now ost d

/-- Run a list of events, keeping only the state. -/
def runEvents (now : Nat) (ost : Option SessionSt) (evs : List Ev) :
    Option SessionSt :=
  evs.foldl (fun o e => (stepEv now o e).1) ost

/-- All bag ids carried by a session (current color and saved colors),
in order. -/
def sessionBagIds (st : SessionSt) : List String :=
  (st.models.flatMap fun m => m.colors.flatMap fun cb => cb.2.map Bag.bag_id)
    ++ st.current_bags.map Bag.bag_id

/-! ### Specification-side helpers used by the theorems -/

/-- The nonzero bags of an item list, flattened to their ledger rows
(one row per bag whose quantities sum to a nonzero total). -/
def nonzeroRowsOf (st : SessionSt)
    (items : List (Option String × Option String × Bag)) : List LedgerRow :=
  (items.filter fun it => ¬ bagTotal it.2.2 = 0).map
    fun it => mkLedgerRow st it.1 it.2.1 it.2.2

/-- The rows a finished session should emit. -/
def nonzeroRows (st : SessionSt) : List LedgerRow :=
  nonzeroRowsOf st (sessionItems st)

/-- The commit loop restricted to the attempted rows (notification-free
reference shape used to characterise `commitGo`): for each row in turn,
a successful append counts in the first component and keeps the row, a
failed one counts in the second. -/
def commitSpec (append : Nat → LedgerRow → Bool) :
    Nat → List LedgerRow → Nat × Nat × List LedgerRow
  | _, [] => (0, 0, [])
  | k, r :: rest =>
    let t := commitSpec append (k + 1) rest
    if append k r then (t.1 + 1, t.2.1, r :: t.2.2)
    else (t.1, t.2.1 + 1, t.2.2)

/-- Creation-order bag numbering: the ids of `bags` are
`{sid}-1 .. {sid}-{len}` in order. -/
def bagsNumberedFrom1 (sid : String) (bags : List Bag) : Prop :=
  bags.map Bag.bag_id =
    (List.range bags.length).map fun i => pyStrip sid ++ "-" ++ toString (i + 1)

/-- Every bag list held by the session (the in-progress color and every
saved color of every model) is numbered from 1 in creation order. -/
def SessionBagsWF (st : SessionSt) : Prop :=
  bagsNumberedFrom1 st.shipment_id st.current_bags ∧
  ∀ m ∈ st.models, ∀ cb ∈ m.colors, bagsNumberedFrom1 st.shipment_id cb.2

/-- The machine invariant: a usable shipment id plus creation-order
numbering everywhere. -/
def MachineInv (st : SessionSt) : Prop :=
  pyStrip st.shipment_id ≠ "" ∧ SessionBagsWF st

/-- The invariant lifted to a possibly destroyed session. -/
def OMachineInv : Option SessionSt → Prop
  | none => True
  | some st => MachineInv st

/-! ### Concrete fixtures for the theorems -/

/-- A session that has just reached the color-name step with one model
entered and shipment id `"1"`. -/
def colorStepState : SessionSt :=
  { step := .askColorName, warehouse := some "Казань", models := [],
    current_model := some "Shirt", current_color := none, current_bags := [],
    current_bag_index := 0, awaiting_size := none, ship_date := none,
    eta_date := none, shipment_id := "1" }

/-- Two colors, one filled bag each. -/
def twoColorTrace : List Ev :=
  [.text "Red", .sizepad "cset_S", .text "5", .sizepad "cadd_color",
   .text "Blue", .sizepad "cset_S", .text "7", .sizepad "cfinish_model"]

/-- The state the machine reaches on `twoColorTrace` (computed). -/
def twoColorFinal : SessionSt :=
  match runEvents 0 (some colorStepState) twoColorTrace with
  | some st => st
  | none => colorStepState

/-- A confirmed session with two colors of two bags each,
sizes `{S: 5}` and `{M: 0}` per color. -/
def twoColorTwoBagSession : SessionSt :=
  { step := .confirmStep, warehouse := some "Казань",
    models := [⟨some "Shirt",
      [(some "Red", [⟨"1-1", [("S", 5)]⟩, ⟨"1-2", [("M", 0)]⟩]),
       (some "Blue", [⟨"1-3", [("S", 5)]⟩, ⟨"1-4", [("M", 0)]⟩])]⟩],
    current_model := some "Shirt", current_color := none, current_bags := [],
    current_bag_index := 0, awaiting_size := none,
    ship_date := some "01/02/2024", eta_date := some "05/02/2024",
    shipment_id := "1" }

/-- A confirmed session with one color holding bags `{L: 1}` and `{}`. -/
def emptyBagSession : SessionSt :=
  { step := .confirmStep, warehouse := some "Казань",
    models := [⟨some "Shirt", [(some "Red", [⟨"1-1", [("L", 1)]⟩, ⟨"1-2", []⟩])]⟩],
    current_model := some "Shirt", current_color := none, current_bags := [],
    current_bag_index := 0, awaiting_size := none,
    ship_date := some "01/02/2024", eta_date := some "05/02/2024",
    shipment_id := "1" }

/-- A session waiting at the ship-date step. -/
def shipDateState : SessionSt :=
  { step := .askShipDate, warehouse := some "Казань",
    models := [⟨some "Shirt", [(some "Red", [⟨"1-1", [("S", 5)]⟩])]⟩],
    current_model := some "Shirt", current_color := none, current_bags := [],
    current_bag_index := 0, awaiting_size := none, ship_date := none,
    eta_date := none, shipment_id := "1" }

/-! ## Helper lemmas -/

theorem toNat_digitChar_of_lt_ten : ∀ k, k < 10 → (Nat.digitChar k).toNat = 48 + k := by
  decide

theorem isDigit_digitChar_of_lt_ten : ∀ k, k < 10 → (Nat.digitChar k).isDigit = true := by
  decide

theorem digitChar_ne_slash : ∀ k, k < 10 → Nat.digitChar k ≠ '/' := by
  decide

theorem isDigit_toNat_bounds {c : Char} (h : c.isDigit = true) :
    48 ≤ c.toNat ∧ c.toNat ≤ 57 := by
  simp only [Char.isDigit, Bool.and_eq_true, decide_eq_true_eq, ge_iff_le] at h
  obtain ⟨h1, h2⟩ := h
  exact ⟨h1, h2⟩

theorem toNat_sub_48_lt_ten {c : Char} (h : c.isDigit = true) : c.toNat - 48 < 10 := by
  have := isDigit_toNat_bounds h
  omega

theorem digitsToNat_cons (c : Char) (t : List Char) :
    digitsToNat (c :: t) =
      t.foldl (fun a d => 10 * a + (d.toNat - 48)) (c.toNat - 48) := by
  simp [digitsToNat]

theorem digitsToNat_lt_aux (t : List Char) :
    ∀ acc, (∀ c ∈ t, c.isDigit = true) →
      t.foldl (fun a d => 10 * a + (d.toNat - 48)) acc < (acc + 1) * 10 ^ t.length := by
  induction t with
  | nil => intro acc _; simp
  | cons c cs ih =>
    intro acc h
    have hc : c.toNat - 48 < 10 := toNat_sub_48_lt_ten (h c (by simp))
    have hrec := ih (10 * acc + (c.toNat - 48)) (fun d hd => h d (by simp [hd]))
    simp only [List.foldl_cons, List.length_cons]
    calc (cs.foldl (fun a d => 10 * a + (d.toNat - 48)) (10 * acc + (c.toNat - 48)))
        < (10 * acc + (c.toNat - 48) + 1) * 10 ^ cs.length := hrec
      _ ≤ (acc + 1) * 10 ^ (cs.length + 1) := by
          rw [pow_succ]
          calc (10 * acc + (c.toNat - 48) + 1) * 10 ^ cs.length
              ≤ ((acc + 1) * 10) * 10 ^ cs.length := by
                apply Nat.mul_le_mul_right
                omega
            _ = (acc + 1) * (10 ^ cs.length * 10) := by ring

theorem digitsToNat_lt (t : List Char) (h : ∀ c ∈ t, c.isDigit = true) :
    digitsToNat t < 10 ^ t.length := by
  have := digitsToNat_lt_aux t 0 h
  simpa [digitsToNat] using this

theorem splitOnChar_of_no_sep {sep : Char} {xs : List Char}
    (h : ∀ x ∈ xs, x ≠ sep) : splitOnChar sep xs = [xs] := by
  induction xs with
  | nil => rfl
  | cons c cs ih =>
    have hc : c ≠ sep := h c (by simp)
    have := ih (fun x hx => h x (by simp [hx]))
    simp [splitOnChar, hc, this]

theorem splitOnChar_append {sep : Char} {xs ys : List Char}
    (h : ∀ x ∈ xs, x ≠ sep) :
    splitOnChar sep (xs ++ sep :: ys) = xs :: splitOnChar sep ys := by
  induction xs with
  | nil => simp [splitOnChar]
  | cons c cs ih =>
    have hc : c ≠ sep := h c (by simp)
    have hrec := ih (fun x hx => h x (by simp [hx]))
    simp only [List.cons_append, splitOnChar, hc, if_false, List.append_eq, hrec]

theorem dayTok_eq_some {t : List Char} {v : Nat} (h : dayTok t = some v) :
    1 ≤ v ∧ v ≤ 31 := by
  unfold dayTok at h
  split at h
  · split at h
    · rename_i hb
      obtain rfl := Option.some.inj h
      exact hb
    · exact absurd h (by simp)
  · split at h
    · rename_i c _
      split at h
      · rename_i hc
        obtain rfl := Option.some.inj h
        have h1 := isDigit_toNat_bounds hc.1
        have h2 := hc.2
        omega
      · exact absurd h (by simp)
    · exact absurd h (by simp)

theorem monTok_eq_some {t : List Char} {v : Nat} (h : monTok t = some v) :
    1 ≤ v ∧ v ≤ 12 := by
  unfold monTok at h
  split at h
  · split at h
    · rename_i hb
      obtain rfl := Option.some.inj h
      exact hb
    · exact absurd h (by simp)
  · exact absurd h (by simp)

theorem yearTok_eq_some {t : List Char} {v : Nat} (h : yearTok t = some v) :
    v ≤ 9999 := by
  unfold yearTok at h
  split at h
  · rename_i hb
    obtain rfl := Option.some.inj h
    have hlt : digitsToNat t < 10 ^ t.length := by
      apply digitsToNat_lt
      intro c hc
      simpa using List.all_eq_true.mp hb.1 c hc
    rw [hb.2] at hlt
    omega
  · exact absurd h (by simp)

/-- Facts extracted from a successful `pyStrptimeDMY`. -/
theorem pyStrptimeDMY_bounds {sep : Char} {s : String} {d m y : Nat}
    (h : pyStrptimeDMY sep s = some (d, m, y)) :
    1 ≤ d ∧ d ≤ 31 ∧ 1 ≤ m ∧ m ≤ 12 ∧ 1 ≤ y ∧ y ≤ 9999 ∧ d ≤ daysInMonth m y := by
  unfold pyStrptimeDMY at h
  split at h
  · rename_i dt mt yt _
    simp only [Option.bind_eq_bind, Option.bind_eq_some] at h
    obtain ⟨dv, hd, mv, hm, yv, hy, hfin⟩ := h
    split at hfin
    · rename_i hcond
      have heq := Option.some.inj hfin
      obtain ⟨rfl, rfl, rfl⟩ : dv = d ∧ mv = m ∧ yv = y := by
        simpa [Prod.ext_iff] using heq
      have h1 := dayTok_eq_some hd
      have h2 := monTok_eq_some hm
      have h3 := yearTok_eq_some hy
      exact ⟨h1.1, h1.2, h2.1, h2.2, hcond.1, h3, hcond.2⟩
    · exact absurd hfin (by simp)
  · exact absurd h (by simp)

theorem pad2_all_digits {n : Nat} (h : n ≤ 99) : ∀ c ∈ pad2 n, c.isDigit = true := by
  intro c hc
  simp only [pad2, List.mem_cons, List.not_mem_nil, or_false] at hc
  rcases hc with rfl | rfl
  · exact isDigit_digitChar_of_lt_ten (n / 10) (by omega)
  · exact isDigit_digitChar_of_lt_ten (n % 10) (by omega)

theorem pad4_all_digits {n : Nat} (h : n ≤ 9999) : ∀ c ∈ pad4 n, c.isDigit = true := by
  intro c hc
  simp only [pad4, List.mem_cons, List.not_mem_nil, or_false] at hc
  rcases hc with rfl | rfl | rfl | rfl
  · exact isDigit_digitChar_of_lt_ten (n / 1000) (by omega)
  · exact isDigit_digitChar_of_lt_ten (n / 100 % 10) (by omega)
  · exact isDigit_digitChar_of_lt_ten (n / 10 % 10) (by omega)
  · exact isDigit_digitChar_of_lt_ten (n % 10) (by omega)

theorem pad2_ne_slash {n : Nat} (h : n ≤ 99) : ∀ c ∈ pad2 n, c ≠ '/' := by
  intro c hc
  simp only [pad2, List.mem_cons, List.not_mem_nil, or_false] at hc
  rcases hc with rfl | rfl
  · exact digitChar_ne_slash (n / 10) (by omega)
  · exact digitChar_ne_slash (n % 10) (by omega)

theorem pad4_ne_slash {n : Nat} (h : n ≤ 9999) : ∀ c ∈ pad4 n, c ≠ '/' := by
  intro c hc
  simp only [pad4, List.mem_cons, List.not_mem_nil, or_false] at hc
  rcases hc with rfl | rfl | rfl | rfl
  · exact digitChar_ne_slash (n / 1000) (by omega)
  · exact digitChar_ne_slash (n / 100 % 10) (by omega)
  · exact digitChar_ne_slash (n / 10 % 10) (by omega)
  · exact digitChar_ne_slash (n % 10) (by omega)

theorem digitsToNat_pad2 {n : Nat} (h : n ≤ 99) : digitsToNat (pad2 n) = n := by
  have h1 := toNat_digitChar_of_lt_ten (n / 10) (by omega)
  have h2 := toNat_digitChar_of_lt_ten (n % 10) (by omega)
  simp only [digitsToNat, pad2, List.foldl_cons, List.foldl_nil, h1, h2]
  omega

theorem digitsToNat_pad4 {n : Nat} (h : n ≤ 9999) : digitsToNat (pad4 n) = n := by
  have h1 := toNat_digitChar_of_lt_ten (n / 1000) (by omega)
  have h2 := toNat_digitChar_of_lt_ten (n / 100 % 10) (by omega)
  have h3 := toNat_digitChar_of_lt_ten (n / 10 % 10) (by omega)
  have h4 := toNat_digitChar_of_lt_ten (n % 10) (by omega)
  simp only [digitsToNat, pad4, List.foldl_cons, List.foldl_nil, h1, h2, h3, h4]
  omega

theorem dayTok_pad2 {d : Nat} (h1 : 1 ≤ d) (h2 : d ≤ 31) :
    dayTok (pad2 d) = some d := by
  have hdig : (pad2 d).all Char.isDigit = true :=
    List.all_eq_true.mpr fun c hc => by simpa using pad2_all_digits (by omega) c hc
  have hval := digitsToNat_pad2 (show d ≤ 99 by omega)
  unfold dayTok
  rw [if_pos ⟨hdig, Or.inr rfl⟩, hval, if_pos ⟨h1, h2⟩]

theorem monTok_pad2 {m : Nat} (h1 : 1 ≤ m) (h2 : m ≤ 12) :
    monTok (pad2 m) = some m := by
  have hdig : (pad2 m).all Char.isDigit = true :=
    List.all_eq_true.mpr fun c hc => by simpa using pad2_all_digits (by omega) c hc
  have hval := digitsToNat_pad2 (show m ≤ 99 by omega)
  unfold monTok
  rw [if_pos ⟨hdig, Or.inr rfl⟩, hval, if_pos ⟨h1, h2⟩]

theorem yearTok_pad4 {y : Nat} (h : y ≤ 9999) : yearTok (pad4 y) = some y := by
  have hdig : (pad4 y).all Char.isDigit = true :=
    List.all_eq_true.mpr fun c hc => by simpa using pad4_all_digits h c hc
  have hval := digitsToNat_pad4 h
  unfold yearTok
  rw [if_pos ⟨hdig, rfl⟩, hval]

/-- The canonical rendering parses back to the same date. -/
theorem pyStrptimeDMY_fmtDMY {d m y : Nat} (hd1 : 1 ≤ d) (hd2 : d ≤ 31)
    (hm1 : 1 ≤ m) (hm2 : m ≤ 12) (hy1 : 1 ≤ y) (hy2 : y ≤ 9999)
    (hcal : d ≤ daysInMonth m y) :
    pyStrptimeDMY '/' (fmtDMY d m y) = some (d, m, y) := by
  have hsplit : splitOnChar '/' (fmtDMY d m y).data = [pad2 d, pad2 m, pad4 y] := by
    show splitOnChar '/' (pad2 d ++ '/' :: (pad2 m ++ '/' :: pad4 y)) = _
    rw [splitOnChar_append (pad2_ne_slash (by omega)),
        splitOnChar_append (pad2_ne_slash (by omega)),
        splitOnChar_of_no_sep (pad4_ne_slash hy2)]
  unfold pyStrptimeDMY
  rw [hsplit]
  simp only [dayTok_pad2 hd1 hd2, monTok_pad2 hm1 hm2, yearTok_pad4 hy2,
    Option.bind_eq_bind, Option.some_bind]
  rw [if_pos ⟨hy1, hcal⟩]

/-- `standardize_date` is the identity on canonical renderings. -/
theorem standardize_date_fmtDMY {d m y : Nat} (hd1 : 1 ≤ d) (hd2 : d ≤ 31)
    (hm1 : 1 ≤ m) (hm2 : m ≤ 12) (hy1 : 1 ≤ y) (hy2 : y ≤ 9999)
    (hcal : d ≤ daysInMonth m y) :
    standardize_date (fmtDMY d m y) = fmtDMY d m y := by
  unfold standardize_date
  rw [pyStrptimeDMY_fmtDMY hd1 hd2 hm1 hm2 hy1 hy2 hcal]

/-! ## Claim theorems -/

/-- C8: for every text accepted by `validate_date`, `standardize_date`
is idempotent, and its result is the zero-padded `DD/MM/YYYY` rendering
of the date parsed by the first format that matched. -/
theorem C8_standardize_date_idempotent (s : String)
    (h : validate_date s = true) :
    standardize_date (standardize_date s) = standardize_date s ∧
    ∃ d m y, standardize_date s = fmtDMY d m y ∧
      (pyStrptimeDMY '/' s = some (d, m, y) ∨
       (pyStrptimeDMY '/' s = none ∧ pyStrptimeDMY '.' s = some (d, m, y))) := by
  rcases h1 : pyStrptimeDMY '/' s with _ | ⟨⟨d, m, y⟩⟩
  · have h2 : (pyStrptimeDMY '.' s).isSome = true := by
      unfold validate_date at h
      rw [h1] at h
      simpa using h
    rcases h2' : pyStrptimeDMY '.' s with _ | ⟨⟨d, m, y⟩⟩
    · rw [h2'] at h2; simp at h2
    · obtain ⟨hd1, hd2, hm1, hm2, hy1, hy2, hcal⟩ := pyStrptimeDMY_bounds h2'
      have hstd : standardize_date s = fmtDMY d m y := by
        unfold standardize_date
        rw [h1, h2']
      refine ⟨?_, d, m, y, hstd, Or.inr ⟨rfl, rfl⟩⟩
      rw [hstd]
      exact standardize_date_fmtDMY hd1 hd2 hm1 hm2 hy1 hy2 hcal
  · obtain ⟨hd1, hd2, hm1, hm2, hy1, hy2, hcal⟩ := pyStrptimeDMY_bounds h1
    have hstd : standardize_date s = fmtDMY d m y := by
      unfold standardize_date
      rw [h1]
    refine ⟨?_, d, m, y, hstd, Or.inl rfl⟩
    rw [hstd]
    exact standardize_date_fmtDMY hd1 hd2 hm1 hm2 hy1 hy2 hcal


/-- Witness for C8 at the concrete input `"1.2.2024"`. -/
theorem C8_standardize_date_idempotent_witness :
    validate_date "1.2.2024" = true ∧
    (standardize_date (standardize_date "1.2.2024") = standardize_date "1.2.2024" ∧
     ∃ d m y, standardize_date "1.2.2024" = fmtDMY d m y ∧
       (pyStrptimeDMY '/' "1.2.2024" = some (d, m, y) ∨
        (pyStrptimeDMY '/' "1.2.2024" = none ∧
         pyStrptimeDMY '.' "1.2.2024" = some (d, m, y)))) :=
  ⟨by decide, C8_standardize_date_idempotent "1.2.2024" (by decide)⟩

/-- C10: `standardize_date` is the identity on every string that
neither date format parses (in particular on every input rejected by
`validate_date`), and raises nothing. -/
theorem C10_standardize_date_identity_outside_domain (s : String)
    (h : validate_date s = false) : standardize_date s = s := by
  unfold validate_date at h
  rw [Bool.or_eq_false_iff] at h
  obtain ⟨ha, hb⟩ := h
  have ha' : pyStrptimeDMY '/' s = none := by
    rcases hp : pyStrptimeDMY '/' s with _ | v
    · rfl
    · rw [hp] at ha; simp at ha
  have hb' : pyStrptimeDMY '.' s = none := by
    rcases hq : pyStrptimeDMY '.' s with _ | w
    · rfl
    · rw [hq] at hb; simp at hb
  unfold standardize_date
  rw [ha', hb']

/-- Witness for C10 at the concrete input `"hello"`. -/
theorem C10_standardize_date_identity_outside_domain_witness :
    validate_date "hello" = false ∧ standardize_date "hello" = "hello" :=
  ⟨by decide, C10_standardize_date_identity_outside_domain "hello" (by decide)⟩

/-- C9 counterexample: `parse_new_size_format "s-10m-20"` does not
produce `{S: 10, M: 20}` — it fails (returns `None`), because
`int("10m-20")` raises; there is no separator-normalisation pre-pass in
the code. -/
theorem C9_counterexample_no_normalization :
    parse_new_size_format "s-10m-20" = none ∧
    parse_new_size_format "s-10m-20" ≠ some [("S", 10), ("M", 20)] := by
  constructor
  · decide
  · decide

/-- C9 amended: there is no normalisation pre-pass; both parsers split
strictly on commas / whitespace / the first dash, so `"s-10m-20"` and
`"S-10 M-20"` both fail to parse (each returns `None`): the two inputs
agree only in failing, not in producing `{S: 10, M: 20}`. -/
theorem C9_amended_both_inputs_fail :
    parse_new_size_format "s-10m-20" = none ∧
    parse_new_size_format "S-10 M-20" = none ∧
    parse_warehouse_sizes "s-10m-20" = none ∧
    parse_warehouse_sizes "S-10 M-20" = none := by
  refine ⟨by decide, by decide, by decide, by decide⟩

theorem le_listMax (x : Int) (xs : List Int) : ∀ v ∈ x :: xs, v ≤ listMax x xs := by
  induction xs generalizing x with
  | nil => intro v hv; simp at hv; simp [listMax, hv]
  | cons y ys ih =>
    intro v hv
    have hstep : listMax x (y :: ys) = listMax (max x y) ys := by
      simp [listMax]
    rw [hstep]
    simp only [List.mem_cons] at hv
    rcases hv with rfl | rfl | hv
    · exact le_trans (le_max_left v y) (ih (max v y) (max v y) (by simp))
    · exact le_trans (le_max_right x v) (ih (max x v) (max x v) (by simp))
    · exact ih (max x y) v (by simp [hv])

/-- The extractor applied to a snapshot whose header has the shipment
column at index `j` collects exactly the per-row valid ids. -/
theorem extract_shipment_ids_eq (header : List String)
    (rows : List (List String)) (j : Nat)
    (hj : headerIdx header "номер отправки" = some j) :
    extract_shipment_ids_from_factory (header :: rows) header =
      .ok (rows.filterMap (shipIdOfRow j)) := by
  unfold extract_shipment_ids_from_factory
  rw [hj]
  rfl

/-- Characterisation of the core allocator on a readable snapshot. -/
theorem new_shipment_id_core_eq (header : List String)
    (rows : List (List String)) (j : Nat)
    (hj : headerIdx header "номер отправки" = some j) :
    new_shipment_id_core (header :: rows) =
      .ok (match rows.filterMap (shipIdOfRow j) with
           | [] => "1"
           | x :: xs => toString (listMax x xs + 1)) := by
  unfold new_shipment_id_core
  by_cases hr : (header :: rows).length < 2
  · have hrows : rows = [] := by
      cases rows with
      | nil => rfl
      | cons a as => exfalso; simp only [List.length_cons] at hr; omega
    subst hrows
    simp
  · rw [if_neg hr]
    have hhead : (header :: rows).headD [] = header := rfl
    rw [hhead, extract_shipment_ids_eq header rows j hj]
    cases hx : rows.filterMap (shipIdOfRow j) <;> rfl

/-- C1: on every ledger snapshot whose header row carries the shipment
column (at index `j`), `_new_shipment_id_for_factory`'s scan returns
the decimal string of `max(validValues) + 1` — where the valid values
are exactly the entries of that column that parse as positive integers,
collected per row by `shipIdOfRow` — or `"1"` when there are no data
rows or no valid values; bad entries are merely skipped (the result is
always `ok`), and the returned id numerically exceeds every valid id in
the snapshot. -/
theorem C1_new_shipment_id_is_max_plus_one (header : List String)
    (rows : List (List String)) (j : Nat)
    (hj : headerIdx header "номер отправки" = some j) :
    ∃ k : Int,
      new_shipment_id_core (header :: rows) = .ok (toString k) ∧
      (rows.filterMap (shipIdOfRow j) = [] → k = 1) ∧
      (∀ x xs, rows.filterMap (shipIdOfRow j) = x :: xs →
        k = listMax x xs + 1) ∧
      (∀ v ∈ rows.filterMap (shipIdOfRow j), v < k) := by
  have hcore := new_shipment_id_core_eq header rows j hj
  cases hids : rows.filterMap (shipIdOfRow j) with
  | nil =>
    refine ⟨1, ?_, fun _ => rfl, ?_, ?_⟩
    · rw [hids] at hcore
      simpa using hcore
    · intro x xs hx
      exact absurd hx (by simp)
    · intro v hv
      simp at hv
  | cons x xs =>
    refine ⟨listMax x xs + 1, ?_, ?_, ?_, ?_⟩
    · rw [hids] at hcore
      simpa using hcore
    · intro hx
      exact absurd hx (by simp)
    · intro x2 xs2 hx
      obtain ⟨rfl, rfl⟩ := List.cons.inj hx
      rfl
    · intro v hv
      have := le_listMax x xs v hv
      omega

/-- Witness for C1 on the snapshot
`[["номер отправки"], ["2"], ["x"], ["-5"]]` (valid values `[2]`). -/
theorem C1_new_shipment_id_is_max_plus_one_witness :
    headerIdx ["номер отправки"] "номер отправки" = some 0 ∧
    ∃ k : Int,
      new_shipment_id_core (["номер отправки"] :: [["2"], ["x"], ["-5"]]) =
        .ok (toString k) ∧
      ([["2"], ["x"], ["-5"]].filterMap (shipIdOfRow 0) = [] → k = 1) ∧
      (∀ x xs, [["2"], ["x"], ["-5"]].filterMap (shipIdOfRow 0) = x :: xs →
        k = listMax x xs + 1) ∧
      (∀ v ∈ [["2"], ["x"], ["-5"]].filterMap (shipIdOfRow 0), v < k) :=
  ⟨by decide,
   C1_new_shipment_id_is_max_plus_one ["номер отправки"] [["2"], ["x"], ["-5"]] 0
     (by decide)⟩

/-- The bag extractor applied to a snapshot with both columns present
collects exactly the per-row bag numbers of the shipment. -/
theorem extract_bag_ids_eq (header : List String) (rows : List (List String))
    (jbag jship : Nat) (sid : String)
    (hbag : headerIdx header "номер пакета" = some jbag)
    (hship : headerIdx header "номер отправки" = some jship) :
    extract_bag_ids_for_shipment_factory (header :: rows) header sid =
      .ok (rows.filterMap (bagNumOfRow jbag jship sid)) := by
  unfold extract_bag_ids_for_shipment_factory
  rw [hbag, hship]
  rfl

/-- Characterisation of the core bag allocator on a readable snapshot. -/
theorem next_bag_number_core_eq (header : List String)
    (rows : List (List String)) (jbag jship : Nat) (sid : String)
    (hbag : headerIdx header "номер пакета" = some jbag)
    (hship : headerIdx header "номер отправки" = some jship) :
    next_bag_number_core (header :: rows) sid =
      .ok (match rows.filterMap (bagNumOfRow jbag jship sid) with
           | [] => 1
           | x :: xs => listMax x xs + 1) := by
  unfold next_bag_number_core
  by_cases hr : (header :: rows).length < 2
  · have hrows : rows = [] := by
      cases rows with
      | nil => rfl
      | cons a as => exfalso; simp only [List.length_cons] at hr; omega
    subst hrows
    simp
  · rw [if_neg hr]
    have hhead : (header :: rows).headD [] = header := rfl
    rw [hhead, extract_bag_ids_eq header rows jbag jship sid hbag hship]
    cases hx : rows.filterMap (bagNumOfRow jbag jship sid) <;> rfl

/-- C2 counterexample: on the snapshot whose single data row has
shipment column `"1"` and bag entry `"1-5-9"`, the claim predicts next
bag number 1 — `"1-5-9"` is not of the form `"1-{n}"` with `n` a
positive integer, since the suffix after `"1-"` is `"5-9"` and
`int("5-9")` raises — but the code takes `parts[1] = "5"` of
`bag_id.split("-")` and returns 6. -/
theorem C2_counterexample_multi_hyphen_bag_id :
    get_next_bag_number_for_shipment_factory
        (fun _ => some [["номер отправки", "номер пакета"], ["1", "1-5-9"]])
        "1" = Except.ok 6 ∧
    pyInt ⟨"1-5-9".data.drop 2⟩ = none ∧
    (Except.ok 6 : Except PyErr Int) ≠ Except.ok 1 := by
  refine ⟨rfl, rfl, fun h => absurd (Except.ok.inj h) (by decide)⟩

/-- C2 amended: for every snapshot with both columns present and every
shipment id that is non-empty after stripping,
`_get_next_bag_number_for_shipment_factory` returns `max + 1` over the
bag numbers collected per row by `bagNumOfRow` — rows whose shipment
column equals the id exactly and whose bag entry splits on `-` with
first part equal to the id and **second part** a positive integer
(so `"{id}-{n}"` and also `"{id}-{n}-{...}"` count, with value `n`) —
or 1 when there are none; entries of other shipments, even lexically
similar ones, contribute nothing, and the result always numerically
exceeds every collected bag number. -/
theorem C2_amended_next_bag_number (header : List String)
    (rows : List (List String)) (jbag jship : Nat) (sid : String)
    (hbag : headerIdx header "номер пакета" = some jbag)
    (hship : headerIdx header "номер отправки" = some jship)
    (hsid : pyStrip sid ≠ "") :
    ∃ k : Int,
      get_next_bag_number_for_shipment_factory
        (fun _ => some (header :: rows)) sid = .ok k ∧
      (rows.filterMap (bagNumOfRow jbag jship (pyStrip sid)) = [] → k = 1) ∧
      (∀ x xs, rows.filterMap (bagNumOfRow jbag jship (pyStrip sid)) = x :: xs →
        k = listMax x xs + 1) ∧
      (∀ v ∈ rows.filterMap (bagNumOfRow jbag jship (pyStrip sid)), v < k) := by
  have hsafe : safe_get_factory_sheet_data (fun _ => some (header :: rows)) =
      .ok (header :: rows) := rfl
  have hcore := next_bag_number_core_eq header rows jbag jship (pyStrip sid)
    hbag hship
  have hwrap1 : get_next_bag_number_for_shipment_factory
      (fun _ => some (header :: rows)) sid =
      (match next_bag_number_core (header :: rows) (pyStrip sid) with
       | .ok n => Except.ok n
       | .error .bagIdError => Except.error PyErr.bagIdError
       | .error _ => (Except.ok 1 : Except PyErr Int)) := by
    unfold get_next_bag_number_for_shipment_factory
    rw [if_neg hsid, hsafe]
  have hwrap : get_next_bag_number_for_shipment_factory
      (fun _ => some (header :: rows)) sid =
      .ok (match rows.filterMap (bagNumOfRow jbag jship (pyStrip sid)) with
           | [] => 1
           | x :: xs => listMax x xs + 1) := by
    rw [hwrap1, hcore]
  cases hids : rows.filterMap (bagNumOfRow jbag jship (pyStrip sid)) with
  | nil =>
    refine ⟨1, ?_, fun _ => rfl, ?_, ?_⟩
    · rw [hids] at hwrap
      simpa using hwrap
    · intro x xs hx
      exact absurd hx (by simp)
    · intro v hv
      simp at hv
  | cons x xs =>
    refine ⟨listMax x xs + 1, ?_, ?_, ?_, ?_⟩
    · rw [hids] at hwrap
      simpa using hwrap
    · intro hx
      exact absurd hx (by simp)
    · intro x2 xs2 hx
      obtain ⟨rfl, rfl⟩ := List.cons.inj hx
      rfl
    · intro v hv
      have := le_listMax x xs v hv
      omega

/-- Witness for the amended C2 on the snapshot with rows
`["12", "12-3"]` and `["1", "1-2"]` for shipment `"1"` (only `1-2`
counts). -/
theorem C2_amended_next_bag_number_witness :
    headerIdx ["номер отправки", "номер пакета"] "номер пакета" = some 1 ∧
    headerIdx ["номер отправки", "номер пакета"] "номер отправки" = some 0 ∧
    pyStrip "1" ≠ "" ∧
    ∃ k : Int,
      get_next_bag_number_for_shipment_factory
        (fun _ => some (["номер отправки", "номер пакета"] ::
          [["12", "12-3"], ["1", "1-2"]])) "1" = .ok k ∧
      ([["12", "12-3"], ["1", "1-2"]].filterMap
          (bagNumOfRow 1 0 (pyStrip "1")) = [] → k = 1) ∧
      (∀ x xs, [["12", "12-3"], ["1", "1-2"]].filterMap
          (bagNumOfRow 1 0 (pyStrip "1")) = x :: xs → k = listMax x xs + 1) ∧
      (∀ v ∈ [["12", "12-3"], ["1", "1-2"]].filterMap
          (bagNumOfRow 1 0 (pyStrip "1")), v < k) :=
  ⟨by decide, by decide, by decide,
   C2_amended_next_bag_number ["номер отправки", "номер пакета"]
     [["12", "12-3"], ["1", "1-2"]] 1 0 "1" (by decide) (by decide) (by decide)⟩

/-- C3 counterexample: when the ledger read raises on every retry
attempt, `_new_shipment_id_for_factory` does **not** return the
timestamp fallback `str(int(time.time()) % 100000)` — the
`ShipmentIDError` raised by `_safe_get_factory_sheet_data` is re-raised
(`except ShipmentIDError: raise`); the timestamp fallback only covers
other exception classes. -/
theorem C3_counterexample_shipment_error_propagates :
    new_shipment_id_for_factory (fun _ => none) 987654321 =
      Except.error PyErr.shipmentIdError ∧
    (Except.error PyErr.shipmentIdError : Except PyErr String) ≠
      Except.ok (toString ((987654321 : Nat) % 100000)) := by
  refine ⟨rfl, fun h => Except.noConfusion h⟩

/-- C3 amended: when the ledger read fails on all retry attempts,
`_get_next_bag_number_for_shipment_factory` swallows the error and
returns bag number 1 (the `ShipmentIDError` is not a `BagIDError`, so
the generic handler catches it), while `_new_shipment_id_for_factory`
propagates the `ShipmentIDError`; its timestamp-derived fallback
applies only to unexpected exceptions of other classes. -/
theorem C3_amended_total_read_failure (now : Nat) (sid : String)
    (hsid : pyStrip sid ≠ "") :
    new_shipment_id_for_factory (fun _ => none) now =
      Except.error PyErr.shipmentIdError ∧
    get_next_bag_number_for_shipment_factory (fun _ => none) sid =
      Except.ok 1 := by
  constructor
  · rfl
  · unfold get_next_bag_number_for_shipment_factory
    rw [if_neg hsid]
    rfl

/-- Witness for the amended C3 at `now = 987654321`, `sid = "1"`. -/
theorem C3_amended_total_read_failure_witness :
    pyStrip "1" ≠ "" ∧
    (new_shipment_id_for_factory (fun _ => none) 987654321 =
       Except.error PyErr.shipmentIdError ∧
     get_next_bag_number_for_shipment_factory (fun _ => none) "1" =
       Except.ok 1) :=
  ⟨by decide, C3_amended_total_read_failure 987654321 "1" (by decide)⟩

/-- The commit loop equals the notification-free reference on the
nonzero rows, component-wise. -/
theorem commitGo_eq_commitSpec (append : Nat → LedgerRow → Bool)
    (notify : LedgerRow → Bool) (st : SessionSt) :
    ∀ (items : List (Option String × Option String × Bag)) (k : Nat),
      (commitGo append notify st k items).saved =
        (commitSpec append k (nonzeroRowsOf st items)).1 ∧
      (commitGo append notify st k items).errors =
        (commitSpec append k (nonzeroRowsOf st items)).2.1 ∧
      (commitGo append notify st k items).appended =
        (commitSpec append k (nonzeroRowsOf st items)).2.2 := by
  intro items
  induction items with
  | nil => intro k; simp [commitGo, commitSpec, nonzeroRowsOf]
  | cons it rest ih =>
    intro k
    by_cases hz : bagTotal it.2.2 = 0
    · have hfil : nonzeroRowsOf st (it :: rest) = nonzeroRowsOf st rest := by
        simp [nonzeroRowsOf, List.filter_cons, hz]
      have hgo : commitGo append notify st k (it :: rest) =
          commitGo append notify st k rest := by
        simp [commitGo, hz]
      rw [hgo, hfil]
      exact ih k
    · have hfil : nonzeroRowsOf st (it :: rest) =
          mkLedgerRow st it.1 it.2.1 it.2.2 :: nonzeroRowsOf st rest := by
        simp [nonzeroRowsOf, List.filter_cons, hz]
      rw [hfil]
      have hrec := ih (k + 1)
      by_cases ha : append k (mkLedgerRow st it.1 it.2.1 it.2.2)
      · refine ⟨?_, ?_, ?_⟩ <;>
          simp [commitGo, commitSpec, hz, ha, hrec.1, hrec.2.1, hrec.2.2]
      · refine ⟨?_, ?_, ?_⟩ <;>
          simp [commitGo, commitSpec, hz, ha, hrec.1, hrec.2.1, hrec.2.2]

/-- Every attempted row is counted exactly once, and the successes are
exactly the kept rows. -/
theorem commitSpec_counts (append : Nat → LedgerRow → Bool) :
    ∀ (rows : List LedgerRow) (k : Nat),
      (commitSpec append k rows).1 + (commitSpec append k rows).2.1 =
        rows.length ∧
      (commitSpec append k rows).1 = (commitSpec append k rows).2.2.length := by
  intro rows
  induction rows with
  | nil => intro k; simp [commitSpec]
  | cons r rest ih =>
    intro k
    have := ih (k + 1)
    by_cases ha : append k r
    · simp only [commitSpec, if_pos ha]
      simp only [List.length_cons]
      exact ⟨by omega, by simp [this.2]⟩
    · simp only [commitSpec, if_neg ha]
      simp only [List.length_cons]
      exact ⟨by omega, this.2⟩

/-- The kept rows are the per-call successes in order. -/
theorem commitSpec_appended (append : Nat → LedgerRow → Bool) :
    ∀ (rows : List LedgerRow) (k : Nat),
      (commitSpec append k rows).2.2 =
        ((rows.enumFrom k).filter fun p => append p.1 p.2).map Prod.snd := by
  intro rows
  induction rows with
  | nil => intro k; simp [commitSpec]
  | cons r rest ih =>
    intro k
    have := ih (k + 1)
    by_cases ha : append k r
    · simp [commitSpec, List.enumFrom, ha, this]
    · simp [commitSpec, List.enumFrom, ha, this]

/-- C5: with a failure-free ledger, the commit loop appends exactly one
row per bag with nonzero total and none for an all-zero or empty bag;
in particular a session with two colors of two bags each (`{S: 5}` and
`{M: 0}` per color) yields exactly 2 rows, and a color with bags
`{L: 1}` and `{}` yields exactly 1 row. -/
theorem C5_flatten_skips_empty_bags :
    (∀ st : SessionSt,
      (ship_finish_all (fun _ _ => true) (fun _ => true) st).2.1.appended =
        nonzeroRows st ∧
      (ship_finish_all (fun _ _ => true) (fun _ => true) st).2.1.saved =
        (nonzeroRows st).length ∧
      (ship_finish_all (fun _ _ => true) (fun _ => true) st).2.1.errors = 0) ∧
    (ship_finish_all (fun _ _ => true) (fun _ => true)
        twoColorTwoBagSession).2.1.saved = 2 ∧
    (ship_finish_all (fun _ _ => true) (fun _ => true)
        emptyBagSession).2.1.saved = 1 := by
  refine ⟨?_, by decide, by decide⟩
  intro st
  simp only [nonzeroRows]
  have hgo := commitGo_eq_commitSpec (fun _ _ => true) (fun _ => true) st
    (sessionItems st) 0
  have happ := commitSpec_appended (fun _ _ => true)
    (nonzeroRowsOf st (sessionItems st)) 0
  have hcnt := commitSpec_counts (fun _ _ => true)
    (nonzeroRowsOf st (sessionItems st)) 0
  have happ2 : (commitSpec (fun _ _ => true) 0
      (nonzeroRowsOf st (sessionItems st))).2.2 =
      nonzeroRowsOf st (sessionItems st) := by
    rw [happ]
    simp
  refine ⟨?_, ?_, ?_⟩
  · show (commitGo (fun _ _ => true) (fun _ => true) st 0 (sessionItems st)).appended = _
    rw [hgo.2.2]
    exact happ2
  · show (commitGo (fun _ _ => true) (fun _ => true) st 0 (sessionItems st)).saved = _
    rw [hgo.1, hcnt.2, happ2]
  · show (commitGo (fun _ _ => true) (fun _ => true) st 0 (sessionItems st)).errors = 0
    rw [hgo.2.1]
    have h1 := hcnt.1
    have h2 := hcnt.2
    have h3 : (commitSpec (fun _ _ => true) 0
        (nonzeroRowsOf st (sessionItems st))).2.2.length =
        (nonzeroRowsOf st (sessionItems st)).length := by rw [happ2]
    omega

/-- C6: every nonzero bag's append is attempted independently — failures
only increment the error counter and the loop continues (the appended
rows are exactly the per-call successes, in order, none undone); the
summary message is the contact-support one exactly when `errors > 0`;
and the notification outcomes never change the counts or the appended
rows. -/
theorem C6_commit_error_counting (st : SessionSt)
    (append : Nat → LedgerRow → Bool) (n1 n2 : LedgerRow → Bool) :
    (ship_finish_all append n1 st).2.1.saved +
        (ship_finish_all append n1 st).2.1.errors = (nonzeroRows st).length ∧
    (ship_finish_all append n1 st).2.1.appended =
      (((nonzeroRows st).enumFrom 0).filter fun p => append p.1 p.2).map
        Prod.snd ∧
    (ship_finish_all append n1 st).2.1.saved =
      (ship_finish_all append n1 st).2.1.appended.length ∧
    ((ship_finish_all append n1 st).2.2 =
        .commitSuccess (ship_finish_all append n1 st).2.1.saved ↔
      (ship_finish_all append n1 st).2.1.errors = 0) ∧
    ((ship_finish_all append n1 st).2.2 =
        .commitPartialContactSupport (ship_finish_all append n1 st).2.1.saved
          (ship_finish_all append n1 st).2.1.errors ↔
      0 < (ship_finish_all append n1 st).2.1.errors) ∧
    (ship_finish_all append n2 st).2.1.saved =
      (ship_finish_all append n1 st).2.1.saved ∧
    (ship_finish_all append n2 st).2.1.errors =
      (ship_finish_all append n1 st).2.1.errors ∧
    (ship_finish_all append n2 st).2.1.appended =
      (ship_finish_all append n1 st).2.1.appended := by
  simp only [nonzeroRows]
  have hgo1 := commitGo_eq_commitSpec append n1 st (sessionItems st) 0
  have hgo2 := commitGo_eq_commitSpec append n2 st (sessionItems st) 0
  have hcnt := commitSpec_counts append (nonzeroRowsOf st (sessionItems st)) 0
  have happ := commitSpec_appended append (nonzeroRowsOf st (sessionItems st)) 0
  have hr1 : (ship_finish_all append n1 st).2.1 =
      commitGo append n1 st 0 (sessionItems st) := rfl
  have hr2 : (ship_finish_all append n2 st).2.1 =
      commitGo append n2 st 0 (sessionItems st) := rfl
  refine ⟨?_, ?_, ?_, ?_, ?_, ?_, ?_, ?_⟩
  · rw [hr1, hgo1.1, hgo1.2.1]
    exact hcnt.1
  · rw [hr1, hgo1.2.2]
    exact happ
  · rw [hr1, hgo1.1, hgo1.2.2]
    exact hcnt.2
  · rw [hr1]
    show (if (commitGo append n1 st 0 (sessionItems st)).errors = 0
          then Msg.commitSuccess (commitGo append n1 st 0 (sessionItems st)).saved
          else Msg.commitPartialContactSupport
            (commitGo append n1 st 0 (sessionItems st)).saved
            (commitGo append n1 st 0 (sessionItems st)).errors) = _ ↔ _
    by_cases he : (commitGo append n1 st 0 (sessionItems st)).errors = 0
    · simp [he]
    · simp [he]
  · rw [hr1]
    show (if (commitGo append n1 st 0 (sessionItems st)).errors = 0
          then Msg.commitSuccess (commitGo append n1 st 0 (sessionItems st)).saved
          else Msg.commitPartialContactSupport
            (commitGo append n1 st 0 (sessionItems st)).saved
            (commitGo append n1 st 0 (sessionItems st)).errors) = _ ↔ _
    by_cases he : (commitGo append n1 st 0 (sessionItems st)).errors = 0
    · simp [he]
    · simp [he]
      omega
  · rw [hr1, hr2, hgo1.1, hgo2.1]
  · rw [hr1, hr2, hgo1.2.1, hgo2.2.1]
  · rw [hr1, hr2, hgo1.2.2, hgo2.2.2]

/-! ### Decimal rendering is injective (for bag-id distinctness) -/

theorem foldl_toDigitsCore :
    ∀ (fuel n : Nat) (ds : List Char), n < 10 ^ fuel →
      (Nat.toDigitsCore 10 fuel n ds).foldl (fun a c => 10 * a + (c.toNat - 48)) 0 =
        ds.foldl (fun a c => 10 * a + (c.toNat - 48)) n := by
  intro fuel
  induction fuel with
  | zero =>
    intro n ds h
    have hn : n = 0 := by simpa using h
    subst hn
    rfl
  | succ fuel ih =>
    intro n ds h
    show (Nat.toDigitsCore 10 (fuel + 1) n ds).foldl _ 0 = _
    rw [Nat.toDigitsCore]
    by_cases hz : n / 10 = 0
    · simp only [hz, if_true]
      rw [List.foldl_cons]
      congr 1
      have hd := toNat_digitChar_of_lt_ten (n % 10) (by omega)
      omega
    · simp only [hz, if_false]
      have hlt : n / 10 < 10 ^ fuel := by
        rw [pow_succ] at h
        omega
      rw [ih (n / 10) (Nat.digitChar (n % 10) :: ds) hlt, List.foldl_cons]
      congr 1
      have hd := toNat_digitChar_of_lt_ten (n % 10) (by omega)
      omega

theorem foldl_nat_repr (n : Nat) :
    (Nat.repr n).data.foldl (fun a c => 10 * a + (c.toNat - 48)) 0 = n := by
  have hpow : n < 10 ^ (n + 1) := by
    calc n < 10 ^ n := Nat.lt_pow_self (by omega) n
      _ ≤ 10 ^ (n + 1) := Nat.pow_le_pow_right (by omega) (by omega)
  have := foldl_toDigitsCore (n + 1) n [] hpow
  simpa [Nat.repr, Nat.toDigits, List.asString] using this

theorem nat_repr_injective {a b : Nat} (h : Nat.repr a = Nat.repr b) : a = b := by
  have := congrArg (fun s => s.data.foldl (fun a c => 10 * a + (c.toNat - 48)) 0) h
  simpa [foldl_nat_repr] using this

theorem numbered_id_inj (pre : String) {i j : Nat}
    (h : pre ++ "-" ++ toString i = pre ++ "-" ++ toString j) : i = j := by
  have hd := congrArg String.data h
  have hd2 : (toString i).data = (toString j).data := by
    simpa [String.data_append] using hd
  have hs : toString i = toString j := by
    cases hi : toString i with
    | mk d1 =>
      cases hj : toString j with
      | mk d2 =>
        rw [hi, hj] at hd2
        simp only at hd2
        rw [hd2]
  exact nat_repr_injective hs

theorem bagsNumberedFrom1_nodup {sid : String} {bags : List Bag}
    (h : bagsNumberedFrom1 sid bags) : (bags.map Bag.bag_id).Nodup := by
  rw [bagsNumberedFrom1] at h
  rw [h]
  apply List.Nodup.map
  · intro a b hab
    have := numbered_id_inj (pyStrip sid) hab
    omega
  · exact List.nodup_range _

theorem bagsNumberedFrom1_nil (sid : String) : bagsNumberedFrom1 sid [] := rfl

theorem bagsNumberedFrom1_single (sid : String) (b : Bag)
    (hb : b.bag_id = pyStrip sid ++ "-" ++ toString 1) :
    bagsNumberedFrom1 sid [b] := by
  simp [bagsNumberedFrom1, hb, List.range_succ]

theorem bagsNumberedFrom1_append {sid : String} {bags : List Bag} (b : Bag)
    (h : bagsNumberedFrom1 sid bags)
    (hb : b.bag_id = pyStrip sid ++ "-" ++ toString (bags.length + 1)) :
    bagsNumberedFrom1 sid (bags ++ [b]) := by
  rw [bagsNumberedFrom1] at h ⊢
  rw [List.map_append, h, List.length_append]
  simp [List.range_succ, hb]

theorem map_bag_id_set (bags : List Bag) (i : Nat) (b' : Bag)
    (hb : b'.bag_id = (bags.getD i ⟨"", []⟩).bag_id) :
    (bags.set i b').map Bag.bag_id = bags.map Bag.bag_id := by
  induction bags generalizing i with
  | nil => simp
  | cons a as ih =>
    cases i with
    | zero => simp_all [List.set]
    | succ n =>
      simp only [List.set, List.map_cons]
      rw [ih n (by simpa using hb)]

theorem bagsNumberedFrom1_set {sid : String} {bags : List Bag} {i : Nat}
    {b' : Bag} (h : bagsNumberedFrom1 sid bags)
    (hb : b'.bag_id = (bags.getD i ⟨"", []⟩).bag_id) :
    bagsNumberedFrom1 sid (bags.set i b') := by
  rw [bagsNumberedFrom1] at h ⊢
  rw [map_bag_id_set bags i b' hb, List.length_set]
  exact h

theorem dictSetColors_mem {k : Option String} {v : List Bag}
    {l : List (Option String × List Bag)} :
    ∀ cb ∈ dictSetColors k v l, cb.2 = v ∨ cb ∈ l := by
  induction l with
  | nil => intro cb hcb; simp [dictSetColors] at hcb; simp [hcb]
  | cons p rest ih =>
    obtain ⟨k0, v0⟩ := p
    intro cb hcb
    rw [dictSetColors] at hcb
    by_cases hk : k0 = k
    · rw [if_pos hk] at hcb
      rcases List.mem_cons.mp hcb with hcb | hcb
      · left; rw [hcb]
      · right; exact List.mem_cons_of_mem (k0, v0) hcb
    · rw [if_neg hk] at hcb
      rcases List.mem_cons.mp hcb with hcb | hcb
      · right; rw [hcb]; exact List.mem_cons_self (k0, v0) rest
      · rcases ih cb hcb with hv | hl
        · left; exact hv
        · right; exact List.mem_cons_of_mem (k0, v0) hl

theorem saveColor_preserves {sid : String} {models : List ModelEntry}
    {cm cc : Option String} {bags : List Bag}
    (hm : ∀ m ∈ models, ∀ cb ∈ m.colors, bagsNumberedFrom1 sid cb.2)
    (hb : bagsNumberedFrom1 sid bags) :
    ∀ m ∈ saveColor models cm cc bags, ∀ cb ∈ m.colors,
      bagsNumberedFrom1 sid cb.2 := by
  intro m hmem cb hcb
  rw [saveColor] at hmem
  set ms := if models.isEmpty ∨
      (models.getLast?.elim true fun m => m.model_name ≠ cm)
    then models ++ [⟨cm, []⟩] else models with hms
  have hmsAll : ∀ m2 ∈ ms, ∀ cb2 ∈ m2.colors, bagsNumberedFrom1 sid cb2.2 := by
    intro m2 hm2 cb2 hcb2
    rw [hms] at hm2
    split at hm2
    · rcases List.mem_append.mp hm2 with hin | hnew
      · exact hm m2 hin cb2 hcb2
      · simp at hnew
        rw [hnew] at hcb2
        simp at hcb2
    · exact hm m2 hm2 cb2 hcb2
  have hne : ms ≠ [] := by
    rw [hms]
    split
    · simp
    · rename_i hcnd
      intro hnil
      exact hcnd (Or.inl (by simp [hnil]))
  rcases List.mem_append.mp hmem with hdrop | hlast
  · exact hmsAll m (List.dropLast_sublist ms |>.subset hdrop) cb hcb
  · simp only [List.mem_singleton] at hlast
    rw [hlast] at hcb
    simp only at hcb
    rcases dictSetColors_mem cb hcb with hv | hold
    · rw [hv]; exact hb
    · have hlastMem : ms.getLastD ⟨cm, []⟩ ∈ ms := by
        obtain ⟨a, tl, htl⟩ := List.exists_cons_of_ne_nil hne
        rw [htl]
        exact List.getLast_mem _
      exact hmsAll _ hlastMem cb hold

/-- The free-text handler preserves the machine invariant. -/
theorem handle_text_inv (now : Nat) (st : SessionSt) (input : String)
    (hinv : MachineInv st) : OMachineInv (handle_text now st input).1 := by
  obtain ⟨hsid, hbags, hmodels⟩ := hinv
  unfold handle_text
  dsimp only
  split
  · exact trivial
  · split
    · split
      · exact ⟨hsid, hbags, hmodels⟩
      · split
        · exact ⟨hsid, hbags, hmodels⟩
        · split
          · exact ⟨hsid, bagsNumberedFrom1_set hbags rfl, hmodels⟩
          · exact ⟨hsid, hbags, hmodels⟩
    · split
      · exact ⟨hsid, hbags, hmodels⟩
      · split
        · split
          · exact ⟨hsid, hbags, hmodels⟩
          · exact ⟨hsid, hbags, hmodels⟩
        · split
          · split
            · exact ⟨hsid, hbags, hmodels⟩
            · refine ⟨hsid, ?_, hmodels⟩
              apply bagsNumberedFrom1_single
              simp [generate_bag_id_factory, hsid]
          · split
            · split
              · exact ⟨hsid, hbags, hmodels⟩
              · exact ⟨hsid, hbags, hmodels⟩
            · split
              · split
                · exact ⟨hsid, hbags, hmodels⟩
                · exact ⟨hsid, hbags, hmodels⟩
              · split
                · exact ⟨hsid, hbags, hmodels⟩
                · exact ⟨hsid, hbags, hmodels⟩

/-- The size-keypad callback handler preserves the machine invariant. -/
theorem on_sizepad_inv (now : Nat) (ost : Option SessionSt) (data : String)
    (hinv : OMachineInv ost) : OMachineInv (on_sizepad now ost data).1 := by
  match ost with
  | none => exact trivial
  | some st =>
    obtain ⟨hsid, hbags, hmodels⟩ := hinv
    unfold on_sizepad
    dsimp only
    by_cases h1 : ¬st.step = Step.askColorSizes
    · rw [if_pos h1]; exact ⟨hsid, hbags, hmodels⟩
    · rw [if_neg h1]
      by_cases h2 : st.current_bags.length ≤ st.current_bag_index
      · rw [if_pos h2]; exact ⟨hsid, hbags, hmodels⟩
      · rw [if_neg h2]
        by_cases h3 : pyStartsWith "cset_" data = true
        · rw [if_pos h3]; exact ⟨hsid, hbags, hmodels⟩
        · rw [if_neg h3]
          by_cases h4 : data = "cadd_bag"
          · rw [if_pos h4]
            by_cases h5 : ¬bagAnyNonzero
                (st.current_bags.getD st.current_bag_index ⟨"", []⟩) = true
            · rw [if_pos h5]; exact ⟨hsid, hbags, hmodels⟩
            · rw [if_neg h5]
              refine ⟨hsid, ?_, hmodels⟩
              apply bagsNumberedFrom1_append _ hbags
              simp [generate_bag_id_factory, hsid]
          · rw [if_neg h4]
            by_cases h6 : data = "cclr"
            · rw [if_pos h6]
              exact ⟨hsid, bagsNumberedFrom1_set hbags rfl, hmodels⟩
            · rw [if_neg h6]
              by_cases h7 : data = "cback"
              · rw [if_pos h7]
                exact ⟨hsid, bagsNumberedFrom1_nil _, hmodels⟩
              · rw [if_neg h7]
                by_cases h8 : data = "cadd_color"
                · rw [if_pos h8]
                  by_cases h9 : ¬st.current_bags.any bagAnyNonzero = true
                  · rw [if_pos h9]; exact ⟨hsid, hbags, hmodels⟩
                  · rw [if_neg h9]
                    exact ⟨hsid, bagsNumberedFrom1_nil _,
                      saveColor_preserves hmodels hbags⟩
                · rw [if_neg h8]
                  by_cases h10 : data = "cfinish_model"
                  · rw [if_pos h10]
                    by_cases h11 : ¬st.current_bags.isEmpty = true ∧
                        st.current_bags.any bagAnyNonzero = true
                    · rw [if_pos h11]
                      by_cases h12 : pyFalsyOpt st.ship_date = true
                      · rw [if_pos h12]
                        exact ⟨hsid, bagsNumberedFrom1_nil _,
                          saveColor_preserves hmodels hbags⟩
                      · rw [if_neg h12]
                        by_cases h13 : pyFalsyOpt st.eta_date = true
                        · rw [if_pos h13]
                          exact ⟨hsid, bagsNumberedFrom1_nil _,
                            saveColor_preserves hmodels hbags⟩
                        · rw [if_neg h13]
                          exact ⟨hsid, bagsNumberedFrom1_nil _,
                            saveColor_preserves hmodels hbags⟩
                    · rw [if_neg h11]
                      by_cases h12 : pyFalsyOpt st.ship_date = true
                      · rw [if_pos h12]
                        exact ⟨hsid, bagsNumberedFrom1_nil _, hmodels⟩
                      · rw [if_neg h12]
                        by_cases h13 : pyFalsyOpt st.eta_date = true
                        · rw [if_pos h13]
                          exact ⟨hsid, bagsNumberedFrom1_nil _, hmodels⟩
                        · rw [if_neg h13]
                          exact ⟨hsid, bagsNumberedFrom1_nil _, hmodels⟩
                  · rw [if_neg h10]
                    exact ⟨hsid, hbags, hmodels⟩

theorem stepEv_inv (now : Nat) (ost : Option SessionSt) (e : Ev)
    (hinv : OMachineInv ost) : OMachineInv (stepEv now ost e).1 := by
  cases e with
  | text s =>
    match ost with
    | none => exact trivial
    | some st => exact handle_text_inv now st s hinv
  | sizepad d => exact on_sizepad_inv now ost d hinv

theorem runEvents_inv (now : Nat) :
    ∀ (evs : List Ev) (ost : Option SessionSt),
      OMachineInv ost → OMachineInv (runEvents now ost evs) := by
  intro evs
  induction evs with
  | nil => intro ost h; exact h
  | cons e rest ih =>
    intro ost h
    have hstep : runEvents now ost (e :: rest) =
        runEvents now (stepEv now ost e).1 rest := rfl
    rw [hstep]
    exact ih _ (stepEv_inv now ost e h)

/-- C4 counterexample: driving the machine from the color-name step
through two colors with one filled bag each (`twoColorTrace`) leaves
the session carrying the bag ids `["1-1", "1-1"]` — bag numbering
restarts at 1 for every color, so the ids carried into
confirmation/commit are **not** pairwise distinct. -/
theorem C4_counterexample_duplicate_bag_ids :
    (runEvents 0 (some colorStepState) twoColorTrace).map sessionBagIds =
      some ["1-1", "1-1"] ∧
    ¬(["1-1", "1-1"] : List String).Nodup := by
  refine ⟨rfl, by decide⟩

/-- C4 amended: every bag is created with id `"{shipmentID}-{n}"` where
`n` is its 1-based creation index **within its color**; whatever events
are processed, every bag list held by the session stays numbered
`1..len` in creation order, so bag ids are pairwise distinct within one
color (and within the in-progress color) — but the numbering restarts
at 1 for each color, so distinct colors of one session may repeat ids
(see the counterexample). -/
theorem C4_amended_bag_ids_per_color (now : Nat) (st0 st1 : SessionSt)
    (evs : List Ev) (hsid : pyStrip st0.shipment_id ≠ "")
    (hwf : SessionBagsWF st0)
    (hrun : runEvents now (some st0) evs = some st1) :
    SessionBagsWF st1 ∧
    (st1.current_bags.map Bag.bag_id).Nodup ∧
    (∀ m ∈ st1.models, ∀ cb ∈ m.colors, (cb.2.map Bag.bag_id).Nodup) := by
  have h := runEvents_inv now evs (some st0) ⟨hsid, hwf⟩
  rw [hrun] at h
  obtain ⟨hs, hbags, hmodels⟩ := h
  exact ⟨⟨hbags, hmodels⟩, bagsNumberedFrom1_nodup hbags,
    fun m hm cb hcb => bagsNumberedFrom1_nodup (hmodels m hm cb hcb)⟩

/-- Witness for the amended C4 along `twoColorTrace`. -/
theorem C4_amended_bag_ids_per_color_witness :
    pyStrip colorStepState.shipment_id ≠ "" ∧
    SessionBagsWF colorStepState ∧
    runEvents 0 (some colorStepState) twoColorTrace = some twoColorFinal ∧
    (SessionBagsWF twoColorFinal ∧
     (twoColorFinal.current_bags.map Bag.bag_id).Nodup ∧
     (∀ m ∈ twoColorFinal.models, ∀ cb ∈ m.colors,
        (cb.2.map Bag.bag_id).Nodup)) :=
  ⟨by decide, ⟨rfl, by simp [colorStepState]⟩, rfl,
   C4_amended_bag_ids_per_color 0 colorStepState twoColorFinal twoColorTrace
     (by decide) ⟨rfl, by simp [colorStepState]⟩ rfl⟩

/-- C7 counterexample: at the ship-date step the input `"отмена"`
fails `validate_date`, yet the handler destroys the session (the cancel
branch fires before the date branch) instead of leaving it unchanged
and re-prompting. -/
theorem C7_counterexample_cancel_keyword :
    validate_date (pyStrip "отмена") = false ∧
    handle_text 0 shipDateState "отмена" = (none, [Msg.cancelled]) ∧
    (handle_text 0 shipDateState "отмена").1 ≠ some shipDateState := by
  refine ⟨by decide, rfl, by decide⟩

/-- C7 amended: at the ship-date or ETA-date step, for every text input
whose **stripped** form is not one of the cancel keywords (`"/cancel"`,
`"отмена"`) and fails `validate_date`, the handler returns the very
same session state (same step, warehouse, models, dates and bag data)
together with the single date-format error message — it never advances
on invalid input. -/
theorem C7_amended_invalid_date_is_frame (now : Nat) (st : SessionSt)
    (input : String)
    (hstep : st.step = Step.askShipDate ∨ st.step = Step.askEtaDate)
    (hcancel : ¬(pyLower (pyStrip input) = "/cancel" ∨
       pyLower (pyStrip input) = "отмена"))
    (hdate : validate_date (pyStrip input) = false) :
    handle_text now st input = (some st, [Msg.errBadDate]) := by
  rcases hstep with hs | hs
  · unfold handle_text
    dsimp only
    rw [if_neg hcancel,
        if_neg (show ¬(st.step = Step.askColorSizes ∧
          ¬pyFalsyOpt st.awaiting_size = true) by simp [hs]),
        if_neg (show ¬st.step = Step.askWarehouse by simp [hs]),
        if_neg (show ¬st.step = Step.askModel by simp [hs]),
        if_neg (show ¬st.step = Step.askColorName by simp [hs]),
        if_pos hs, if_pos hdate]
  · unfold handle_text
    dsimp only
    rw [if_neg hcancel,
        if_neg (show ¬(st.step = Step.askColorSizes ∧
          ¬pyFalsyOpt st.awaiting_size = true) by simp [hs]),
        if_neg (show ¬st.step = Step.askWarehouse by simp [hs]),
        if_neg (show ¬st.step = Step.askModel by simp [hs]),
        if_neg (show ¬st.step = Step.askColorName by simp [hs]),
        if_neg (show ¬st.step = Step.askShipDate by simp [hs]),
        if_pos hs, if_pos hdate]

/-- Witness for the amended C7 at the input `"hello"`. -/
theorem C7_amended_invalid_date_is_frame_witness :
    (shipDateState.step = Step.askShipDate ∨
     shipDateState.step = Step.askEtaDate) ∧
    ¬(pyLower (pyStrip "hello") = "/cancel" ∨
      pyLower (pyStrip "hello") = "отмена") ∧
    validate_date (pyStrip "hello") = false ∧
    handle_text 0 shipDateState "hello" = (some shipDateState, [Msg.errBadDate]) :=
  ⟨Or.inl rfl, by decide, by decide,
   C7_amended_invalid_date_is_frame 0 shipDateState "hello" (Or.inl rfl)
     (by decide) (by decide)⟩

end Bot